import Mathlib

/-!
Verification development for the clipo repository (Deno/TypeScript).

This file shallowly embeds the core logic of `clipboardMonitor.ts` and
`projectDetection.ts` (plus the ignore-pattern merge from the config
loader) as executable Lean definitions, and proves properties about the
embedding.  Strings are modelled as `List Char` (`Str`); JavaScript
string primitives (`split`, `trim`, `indexOf`, `substring`, `includes`,
`replace` with `$`-substitution) are implemented from their ECMAScript
semantics; the posix path functions (`resolve`, `normalize`, `relative`,
`isAbsolute`) are implemented from the Deno `std@0.212.0/path` posix
algorithms.  Fallible filesystem operations are modelled with `Except`
and an explicit filesystem value.
-/

/-- Characters of a JavaScript string. -/
abbrev Str := List Char

/-- JavaScript whitespace test (restricted to the ASCII whitespace
characters that can occur in this program's inputs). -/
def isWs (c : Char) : Bool :=
  c = ' ' || c = '\t' || c = '\n' || c = '\r' || c = Char.ofNat 11 || c = Char.ofNat 12

/-- `String.prototype.trim`. -/
def jsTrim (s : Str) : Str :=
  ((s.dropWhile isWs).reverse.dropWhile isWs).reverse

/-- `String.prototype.startsWith` (pattern as first argument). -/
def hasPre (pat : Str) : Str → Bool
  | s => match pat, s with
    | [], _ => true
    | _ :: _, [] => false
    | p :: ps, c :: cs => p = c && hasPre ps cs

/-- `String.prototype.endsWith`. -/
def endsW (suf s : Str) : Bool :=
  hasPre suf.reverse s.reverse

/-- `String.prototype.indexOf` returning `none` for `-1`: first index at
which `pat` occurs in the string. -/
def findSub (pat : Str) : Str → Option Nat
  | [] => if pat = [] then some 0 else none
  | c :: rest =>
    if hasPre pat (c :: rest) then some 0
    else (findSub pat rest).map (· + 1)

/-- `String.prototype.includes`. -/
def hasSub (pat s : Str) : Bool :=
  (findSub pat s).isSome

/-- `String.prototype.split` with a single-character separator. -/
def chSplit (sep : Char) : Str → List Str
  | [] => [[]]
  | c :: rest =>
    let r := chSplit sep rest
    if c = sep then [] :: r
    else
      match r with
      | [] => [[c]]
      | h :: t => (c :: h) :: t

/-- `Array.prototype.join` with a single-character separator. -/
def chJoin (sep : Char) : List Str → Str
  | [] => []
  | [s] => s
  | s :: rest => s ++ sep :: chJoin sep rest

/-- `String.prototype.substring` (clamps both indices to the string
length and swaps them when the first exceeds the second). -/
def jsSubstring (s : Str) (a b : Nat) : Str :=
  let a' := min a s.length
  let b' := min b s.length
  let lo := min a' b'
  let hi := max a' b'
  (s.drop lo).take (hi - lo)

/-- ECMAScript `GetSubstitution` for a string (non-regex) search pattern:
`$$`, `$&`, `$`-backtick and `$`-apostrophe are interpreted; a `$`
followed by anything else stays literal (there are no capture groups for
a string pattern). `matched` is the search string itself, `before` and
`after` are the slices of the subject around the match. -/
def dollarSub (matched before after : Str) : Str → Str
  | [] => []
  | '$' :: '$' :: rest => '$' :: dollarSub matched before after rest
  | '$' :: '&' :: rest => matched ++ dollarSub matched before after rest
  | '$' :: c :: rest =>
    if c = Char.ofNat 96 then before ++ dollarSub matched before after rest
    else if c = Char.ofNat 39 then after ++ dollarSub matched before after rest
    else '$' :: c :: dollarSub matched before after rest
  | c :: rest => c :: dollarSub matched before after rest

/-- `String.prototype.replace` with a string pattern: replaces the first
occurrence only, applying `$`-substitution to the replacement template. -/
def replaceJS (s pat rep : Str) : Str :=
  match findSub pat s with
  | none => s
  | some i =>
    s.take i ++ dollarSub pat (s.take i) (s.drop (i + pat.length)) rep
      ++ s.drop (i + pat.length)

/-! ## Posix path functions (Deno std@0.212.0 path module) -/

/-- posix `isAbsolute`. -/
def isAbsStr : Str → Bool
  | '/' :: _ => true
  | _ => false

/-- Segment-stack normalization from the std `normalizeString` helper:
drops empty and `.` segments and resolves `..` against the stack,
keeping `..` segments only when `allowUp` is set (relative paths).
The first argument is the reversed stack of segments emitted so far. -/
def normStack (allowUp : Bool) : List Str → List Str → List Str
  | stack, [] => stack.reverse
  | stack, seg :: rest =>
    if seg = [] || seg = ['.'] then normStack allowUp stack rest
    else if seg = ['.', '.'] then
      match stack with
      | top :: others =>
        if top = ['.', '.'] then
          if allowUp then normStack allowUp (seg :: top :: others) rest
          else normStack allowUp (top :: others) rest
        else normStack allowUp others rest
      | [] =>
        if allowUp then normStack allowUp [seg] rest
        else normStack allowUp [] rest
    else normStack allowUp (seg :: stack) rest

/-- Split a path into `/`-separated segments. -/
def splitSeg (s : Str) : List Str := chSplit '/' s

/-- posix `resolve(base, p)` for an absolute `base` (the only way the
monitor uses it: `base` is the already-absolute project directory). -/
def resolveAbs (base p : Str) : Str :=
  let full := if isAbsStr p then p else base ++ '/' :: p
  '/' :: chJoin '/' (normStack false [] (splitSeg full))

/-- posix `normalize`. -/
def jsNormalize (s : Str) : Str :=
  if s = [] then ['.']
  else
    let abs := isAbsStr s
    let trail := endsW ['/'] s
    let body := chJoin '/' (normStack (!abs) [] (splitSeg s))
    let body := if body = [] && !abs then ['.'] else body
    let body := if body ≠ [] && trail then body ++ ['/'] else body
    if abs then '/' :: body else body

/-- Drop the common leading segments of two segment lists. -/
def dropCommon : List Str → List Str → List Str × List Str
  | [], ts => ([], ts)
  | fs, [] => (fs, [])
  | f :: fs, t :: ts =>
    if f = t then dropCommon fs ts else (f :: fs, t :: ts)

/-- posix `relative(from, to)` for absolute `from`/`to` (the monitor only
compares the absolute project root with an absolute target). -/
def relAbs (f t : Str) : Str :=
  let f' := resolveAbs ['/'] f
  let t' := resolveAbs ['/'] t
  if f' = t' then []
  else
    let fs := (splitSeg f').filter (· ≠ [])
    let ts := (splitSeg t').filter (· ≠ [])
    let (fr, tr) := dropCommon fs ts
    chJoin '/' (fr.map (fun _ => ['.', '.']) ++ tr)

/-- posix `dirname` for an absolute path (used only to record the
directory created by `Deno.mkdir` before a whole-file write). -/
def jsDirname (s : Str) : Str :=
  let segs := (splitSeg s).filter (· ≠ [])
  match segs.dropLast with
  | [] => ['/']
  | ds => '/' :: chJoin '/' ds

/-! ## Clipboard monitor embedding (`src/clipboardMonitor.ts`) -/

/-- `isPathSafe` from `clipboardMonitor.ts` lines 13-17: the relative
path from the base directory must be non-empty, must not start with the
two-character string `..`, and must not be absolute. -/
def isPathSafe (baseDir targetPath : Str) : Bool :=
  let rel := relAbs baseDir targetPath
  decide (rel ≠ []) && !hasPre ['.', '.'] rel && !isAbsStr rel

/-- The absolute target path computed in `processClipboardContent`
lines 107-109: absolute declared paths are used as-is, relative ones are
resolved against the project root, and the result is normalized. -/
def resolveTarget (base declared : Str) : Str :=
  jsNormalize (if isAbsStr declared then declared else resolveAbs base declared)

def SEARCH_TOK : Str := ("------- SEARCH").data
def SEP_TOK : Str := ("=======").data
def REPL_TOK : Str := ("+++++++ REPLACE").data

/-- `replace(/^```/ , '')`: strip one leading code fence. -/
def stripFence (s : Str) : Str :=
  if hasPre (("```").data) s then s.drop 3 else s

/-- `replace(/^\/\/\s*/ , '')`: strip a leading `//` and following
whitespace. -/
def stripSlashes (s : Str) : Str :=
  if hasPre ['/', '/'] s then (s.drop 2).dropWhile isWs else s

/-- `isFileReplacementPattern`: the first line, trimmed, either starts
with `//` and contains a `/`, or is a fenced-code opener whose remainder
after the backticks starts with `//` and contains a `/`. -/
def isFileReplacementPattern (content : Str) : Bool :=
  let firstLine := jsTrim ((chSplit '\n' content).headD [])
  if hasPre ['/', '/'] firstLine && hasSub ['/'] firstLine then true
  else if hasPre (("```").data) firstLine then
    let afterTicks := jsTrim (stripFence firstLine)
    hasPre ['/', '/'] afterTicks && hasSub ['/'] afterTicks
  else false

/-- `isSearchReplacePattern`: all three delimiter tokens occur somewhere
in the text (order is not inspected). -/
def isSearchReplacePattern (content : Str) : Bool :=
  hasSub SEARCH_TOK content && hasSub SEP_TOK content && hasSub REPL_TOK content

structure ParsedContent where
  filePath : Str
  fileContent : Str
  isFence : Bool
deriving DecidableEq, Repr

/-- `parseFileContent`: extract the declared path from the first line and
the body from the remaining lines, removing fence syntax when present. -/
def parseFileContent (content : Str) : ParsedContent :=
  let lines := chSplit '\n' content
  let firstLine0 := jsTrim (lines.headD [])
  let fence := hasPre (("```").data) firstLine0
  let firstLine := if fence then jsTrim (stripFence firstLine0) else firstLine0
  let filePath :=
    if hasPre ['/', '/'] firstLine then jsTrim (stripSlashes firstLine) else []
  let fileContent := chJoin '\n' (lines.drop 1)
  let fileContent :=
    if fence then
      let contentLines := chSplit '\n' fileContent
      if contentLines ≠ [] && jsTrim (contentLines.getLastD []) = ("```").data then
        chJoin '\n' contentLines.dropLast
      else fileContent
    else fileContent
  ⟨filePath, fileContent, fence⟩

/-- Messages logged by the monitor (only the classification matters). -/
inductive LogMsg where
  | noValidPath
  | blockedWrite
  | invalidFormat
  | emptySearch
  | readWriteError
  | notFound
deriving DecidableEq, Repr

/-- A flat filesystem: association list from absolute path to content
(first binding wins). -/
abbrev FS := List (Str × Str)

def fsRead (fs : FS) (p : Str) : Option Str :=
  (fs.find? (fun e => e.1 = p)).map (·.2)

def fsWrite : FS → Str → Str → FS
  | [], p, c => [(p, c)]
  | (q, d) :: rest, p, c =>
    if q = p then (p, c) :: rest else (q, d) :: fsWrite rest p c

/-- Result of processing one clipboard payload: the filesystem after the
call plus the observable actions (paths read, paths written, directories
created) and the messages logged. -/
structure ProcResult where
  fs : FS
  reads : List Str
  writes : List Str
  mkdirs : List Str
  logs : List LogMsg
deriving DecidableEq, Repr

/-- The three delimiter indices computed at the top of
`processSearchReplace`; `none` when any token is missing (`indexOf`
returned `-1`). -/
def srIdx (content : Str) : Option (Nat × Nat × Nat) :=
  match findSub SEARCH_TOK content, findSub SEP_TOK content, findSub REPL_TOK content with
  | some a, some b, some c => some (a, b, c)
  | _, _, _ => none

/-- The extracted (trimmed) search text of `processSearchReplace`. -/
def srSearch (content : Str) : Str :=
  match srIdx content with
  | some (a, b, _) => jsTrim (jsSubstring content (a + SEARCH_TOK.length) b)
  | none => []

/-- The extracted (trimmed) replacement text of `processSearchReplace`. -/
def srReplace (content : Str) : Str :=
  match srIdx content with
  | some (_, b, c) => jsTrim (jsSubstring content (b + SEP_TOK.length) c)
  | none => []

/-- `processSearchReplace` (lines 166-201): validate the delimiters,
reject an empty search, then read the file, require the search text to
occur, and write back the result of the first-occurrence replacement. -/
def processSearchReplace (fs : FS) (filePath content : Str) : ProcResult :=
  match srIdx content with
  | none => ⟨fs, [], [], [], [.invalidFormat]⟩
  | some _ =>
    let searchContent := srSearch content
    let replaceContent := srReplace content
    if searchContent = [] then ⟨fs, [], [], [], [.emptySearch]⟩
    else
      match fsRead fs filePath with
      | none => ⟨fs, [filePath], [], [], [.readWriteError]⟩
      | some orig =>
        if hasSub searchContent orig then
          ⟨fsWrite fs filePath (replaceJS orig searchContent replaceContent),
            [filePath], [filePath], [], []⟩
        else ⟨fs, [filePath], [], [], [.notFound]⟩

/-- `processCompleteFileReplacement` (lines 203-217): create the parent
directory and overwrite the file with the payload body. -/
def processCompleteFileReplacement (fs : FS) (targetPath fileContent : Str) : ProcResult :=
  ⟨fsWrite fs targetPath fileContent, [], [targetPath], [jsDirname targetPath], []⟩

/-- `processClipboardContent` (lines 94-127): parse the declared path,
resolve and normalize it, block targets outside the project root, and
dispatch on the search/replace token test. -/
def processClipboardContent (base : Str) (fs : FS) (content : Str) : ProcResult :=
  let filePath := (parseFileContent content).filePath
  if filePath = [] then ⟨fs, [], [], [], [.noValidPath]⟩
  else
    let target := resolveTarget base filePath
    if !isPathSafe base target then ⟨fs, [], [], [], [.blockedWrite]⟩
    else if isSearchReplacePattern content then processSearchReplace fs target content
    else processCompleteFileReplacement fs target (parseFileContent content).fileContent

/-- One monitor tick after a successful clipboard read
(`checkClipboard`, lines 74-92): unchanged or blank clipboard text is
ignored, unrecognized text is ignored, recognized text is processed. -/
def checkClipboardStep (base : Str) (fs : FS) (content lastContent : Str) : ProcResult :=
  if content = lastContent || jsTrim content = [] then ⟨fs, [], [], [], []⟩
  else if isFileReplacementPattern content then processClipboardContent base fs content
  else ⟨fs, [], [], [], []⟩

/-- Modelled from the spec (§4.5, claim C1 wording): the acceptance
predicate on the relative path with "does not start with a
parent-traversal segment" read segment-wise — the first `/`-separated
segment of the relative path must not be exactly `..`. Used only to
compare the spec's wording with `isPathSafe`. -/
def specSafeRel (rel : Str) : Bool :=
  decide (rel ≠ []) && decide ((chSplit '/' rel).headD [] ≠ ['.', '.']) && !isAbsStr rel

/-! ## Project detection embedding (`src/projectDetection.ts`) -/

structure ProjectDetectionRule where
  name : String
  priority : Int
  files : List String
  folders : List String
  patterns : List String
deriving DecidableEq, Repr

structure DefaultIgnorePattern where
  files : List String
  folders : List String
  extensions : List String
deriving DecidableEq, Repr

/-- The static rule table, in its source order. -/
def PROJECT_DETECTION_RULES : List ProjectDetectionRule := [
  ⟨"Next.js", 10, ["next.config.js", "next.config.ts", "next.config.mjs"], [".next"],
    ["pages/", "app/", "components/"]⟩,
  ⟨"Vue.js", 9, ["vue.config.js", "vite.config.js", "nuxt.config.js", "nuxt.config.ts"],
    [".nuxt", "dist"], ["*.vue"]⟩,
  ⟨"React", 8, ["package.json"], [], ["*.jsx", "*.tsx", "components/", "pages/", "app/"]⟩,
  ⟨"Deno", 10, ["deno.json", "deno.jsonc", "import_map.json"], [],
    ["deps.ts", "mod.ts", "main.ts"]⟩,
  ⟨"Node.js", 8, ["package.json", "package-lock.json", "yarn.lock", "pnpm-lock.yaml"],
    ["node_modules"], []⟩,
  ⟨"Python", 7, ["requirements.txt", "setup.py", "pyproject.toml", "Pipfile", "poetry.lock"],
    ["__pycache__", "venv", ".venv", "env", ".env"], ["*.py"]⟩,
  ⟨"Rust", 7, ["Cargo.toml", "Cargo.lock"], ["target"], ["*.rs"]⟩,
  ⟨"Go", 7, ["go.mod", "go.sum"], ["vendor"], ["*.go"]⟩,
  ⟨"Arduino", 6, ["*.ino"], ["libraries", "hardware"], ["*.ino"]⟩,
  ⟨"ESP-IDF", 8, ["CMakeLists.txt", "sdkconfig", "idf_component.yml"],
    ["build", "managed_components"], ["main/", "components/"]⟩,
  ⟨"C/C++", 5, ["Makefile", "CMakeLists.txt", "configure.ac"], ["build", "obj"],
    ["*.c", "*.cpp", "*.cc", "*.cxx", "*.h", "*.hpp"]⟩,
  ⟨"Java", 6, ["pom.xml", "build.gradle", "gradle.properties"], ["target", "build", ".gradle"],
    ["*.java"]⟩,
  ⟨"C#/.NET", 6, ["*.csproj", "*.sln", "project.json", "packages.config"],
    ["bin", "obj", "packages"], ["*.cs"]⟩,
  ⟨"PHP", 5, ["composer.json", "composer.lock"], ["vendor"], ["*.php"]⟩,
  ⟨"Ruby", 5, ["Gemfile", "Gemfile.lock", "Rakefile"], ["vendor/bundle"], ["*.rb"]⟩,
  ⟨"Swift", 6, ["Package.swift", "*.xcodeproj", "*.xcworkspace"], [".build", "DerivedData"],
    ["*.swift"]⟩,
  ⟨"Kotlin", 6, ["build.gradle.kts", "settings.gradle.kts"], ["build", ".gradle"],
    ["*.kt", "*.kts"]⟩]

/-- Stable insertion sort with a JavaScript comparator: `gt x y` holds
when `compare(x, y) > 0`, i.e. `x` must come after `y`; ties and
less-than keep `x` first, which matches a stable sort. -/
def insSortBy (gt : α → α → Bool) : List α → List α
  | [] => []
  | x :: rest => insertBy gt x (insSortBy gt rest)
where insertBy (gt : α → α → Bool) (x : α) : List α → List α
  | [] => [x]
  | y :: ys => if gt x y then y :: insertBy gt x ys else x :: y :: ys

/-- `PROJECT_DETECTION_RULES.sort((a, b) => b.priority - a.priority)` —
this is what `detectProjectType` executes on the module-level table
(JavaScript `Array.prototype.sort` sorts in place). -/
def sortRulesByPriority (rules : List ProjectDetectionRule) : List ProjectDetectionRule :=
  insSortBy (fun a b => a.priority < b.priority) rules

/-- Split a pattern at its first `*`. -/
def splitStar : Str → Option (Str × Str)
  | [] => none
  | '*' :: rest => some ([], rest)
  | c :: rest => (splitStar rest).map (fun p => (c :: p.1, p.2))

/-- Full-string match of `pre ++ [^.]* ++ post` against a name (the
regex built for a file glob that does not start with `*.`). -/
def starFullMatch (pre post name : Str) : Bool :=
  hasPre pre name &&
    (let rest := name.drop pre.length
     decide (post.length ≤ rest.length) &&
       decide (rest.drop (rest.length - post.length) = post) &&
       (rest.take (rest.length - post.length)).all (fun c => !(c = '.')))

/-- File-glob matching from the `files` loop of `detectProjectType`:
`*.ext` compiles to the anchored regex `\.ext$`; any other glob compiles
to `^` + the pattern with its first `*` replaced by `[^.]*` + `$`. -/
def globMatch (pat name : Str) : Bool :=
  if hasPre ['*', '.'] pat then endsW ('.' :: pat.drop 2) name
  else
    match splitStar pat with
    | some p => starFullMatch p.1 p.2 name
    | none => pat = name

/-- The C/C++ source-file test `/\.(c|cpp|cc|cxx|c\+\+)$/i`. -/
def cppSrcName (n : Str) : Bool :=
  let l := n.map Char.toLower
  endsW ['.', 'c'] l || endsW ((".cpp").data) l || endsW ((".cc").data) l ||
    endsW ((".cxx").data) l || endsW ((".c++").data) l

/-- Unanchored regex test for a content pattern containing a `*` that
does not start with `*.` (first `*` becomes `.*`, no anchors): the part
before the star must occur, followed later by the part after it. -/
def looseStar (pre post name : Str) : Bool :=
  match findSub pre name with
  | none => false
  | some i => hasSub post (name.drop (i + pre.length))

/-- Content-pattern matching from the `patterns` loop: `*.ext` is the
anchored `\.ext$` test over collected file names, other `*` patterns are
unanchored, `x/` patterns are exact matches over collected directory
names, and everything else is an exact file-name match. -/
def patMatch (allFiles allDirs : List String) (p : String) : Bool :=
  if hasSub ['*'] p.data then
    if hasPre ['*', '.'] p.data then allFiles.any (fun n => endsW ('.' :: p.data.drop 2) n.data)
    else
      match splitStar p.data with
      | some q => allFiles.any (fun n => looseStar q.1 q.2 n.data)
      | none => false
  else if endsW ['/'] p.data then allDirs.contains p
  else allFiles.contains p

/-- The filesystem as seen by one `detectProjectType` call.  Each field
models one primitive the function performs; `Except Unit` models a
JavaScript exception.  `listTop` is the (repeatable) top-level
`Deno.readDir` file listing, `pathExists` is the std `exists` check on a
path joined to the scanned directory, `readFile` is `Deno.readTextFile`,
`jsonHasReact` abstracts `JSON.parse` plus the react-dependency lookup
on the manifest text (`none` models a parse exception), and `collect` is
the outcome of the recursive `collectFiles` scan (files, directories). -/
structure DetectFS where
  listTop : Except Unit (List String)
  pathExists : String → Except Unit Bool
  readFile : String → Except Unit String
  jsonHasReact : String → Option Bool
  collect : Except Unit (List String × List String)

/-- One iteration of the `files` loop: glob checks swallow listing
errors, the React manifest check swallows read/parse errors by falling
back to a weight of 3, the C/C++ build files count only when a top-level
C/C++ source file is present, and the `exists` call is *not* guarded —
its error propagates.  The state is (confidence, matchCount). -/
def fileCheck (o : DetectFS) (rule : ProjectDetectionRule) (st : Nat × Nat) (f : String) :
    Except Unit (Nat × Nat) :=
  if hasSub ['*'] f.data then
    match o.listTop with
    | .error _ => .ok st
    | .ok names =>
      if names.any (fun n => globMatch f.data n.data) then .ok (st.1 + 4, st.2 + 1) else .ok st
  else
    match o.pathExists f with
    | .error e => .error e
    | .ok b =>
      if b then
        if f = "package.json" ∧ rule.name = "React" then
          match o.readFile f with
          | .error _ => .ok (st.1 + 3, st.2 + 1)
          | .ok s =>
            match o.jsonHasReact s with
            | none => .ok (st.1 + 3, st.2 + 1)
            | some true => .ok (st.1 + 5, st.2 + 1)
            | some false => .ok st
        else if rule.name = "C/C++" ∧ (f = "Makefile" ∨ f = "CMakeLists.txt" ∨ f = "configure.ac") then
          match o.listTop with
          | .error _ => .ok st
          | .ok names =>
            if names.any (fun n => cppSrcName n.data) then .ok (st.1 + 3, st.2 + 1) else .ok st
        else .ok (st.1 + 3, st.2 + 1)
      else .ok st

def filesGo (o : DetectFS) (rule : ProjectDetectionRule) :
    List String → Nat × Nat → Except Unit (Nat × Nat)
  | [], st => .ok st
  | f :: rest, st =>
    match fileCheck o rule st f with
    | .error e => .error e
    | .ok st' => filesGo o rule rest st'

/-- One iteration of the `folders` loop: an unguarded `exists` call. -/
def folderCheck (o : DetectFS) (st : Nat × Nat) (f : String) : Except Unit (Nat × Nat) :=
  match o.pathExists f with
  | .error e => .error e
  | .ok b => if b then .ok (st.1 + 2, st.2 + 1) else .ok st

def foldersGo (o : DetectFS) : List String → Nat × Nat → Except Unit (Nat × Nat)
  | [], st => .ok st
  | f :: rest, st =>
    match folderCheck o st f with
    | .error e => .error e
    | .ok st' => foldersGo o rest st'

/-- The `patterns` block: skipped entirely for an empty pattern list; a
failing `collectFiles` scan is swallowed before any `totalChecks`
increment; otherwise each pattern adds one check and a weight of 1 on a
match.  Returns the new state and the number of checks performed. -/
def patternsCheck (o : DetectFS) (rule : ProjectDetectionRule) (st : Nat × Nat) :
    (Nat × Nat) × Nat :=
  if rule.patterns.isEmpty then (st, 0)
  else
    match o.collect with
    | .error _ => (st, 0)
    | .ok c =>
      (rule.patterns.foldl
        (fun s p => if patMatch c.1 c.2 p then (s.1 + 1, s.2 + 1) else s) st,
       rule.patterns.length)

/-- Per-rule score: (confidence, matchCount, totalChecks). -/
def ruleScore (o : DetectFS) (rule : ProjectDetectionRule) : Except Unit (Nat × Nat × Nat) :=
  match filesGo o rule rule.files (0, 0) with
  | .error e => .error e
  | .ok st1 =>
    match foldersGo o rule.folders st1 with
    | .error e => .error e
    | .ok st2 =>
      let pc := patternsCheck o rule st2
      .ok (pc.1.1, pc.1.2, rule.files.length + rule.folders.length + pc.2)

/-- An exact non-negative fraction `num / den` (`den` is always positive
here).  All confidence values of the detector are small rationals, so
the JavaScript float arithmetic (`confidence / max(...)`, comparisons
with `0.2` and with each other) is modelled exactly by integer
cross-multiplication. -/
structure Frac where
  num : Nat
  den : Nat
deriving DecidableEq, Repr

/-- `x < y` on fractions with positive denominators. -/
def fracLt (x y : Frac) : Bool :=
  x.num * y.den < y.num * x.den

/-- `|x - y| < 1/5` on fractions with positive denominators:
`5 * |num_x * den_y - num_y * den_x| < den_x * den_y`. -/
def fracDeltaSmall (x y : Frac) : Bool :=
  5 * (max (x.num * y.den) (y.num * x.den) - min (x.num * y.den) (y.num * x.den)) <
    x.den * y.den

structure DetectionCandidate where
  name : String
  priority : Int
  confidence : Frac
deriving DecidableEq, Repr

/-- Candidate assembly over the (priority-sorted) rules: a rule is kept
when it has at least one match and a raw confidence of at least 2; its
confidence is normalized by `max totalChecks (files + folders)`.
The JavaScript floating-point arithmetic is modelled by exact fractions
(all raw scores are small integers and `0.2` is `1/5`). -/
def rulesGo (o : DetectFS) : List ProjectDetectionRule → List DetectionCandidate →
    Except Unit (List DetectionCandidate)
  | [], acc => .ok acc
  | r :: rest, acc =>
    match ruleScore o r with
    | .error e => .error e
    | .ok s =>
      let acc' :=
        if s.2.1 > 0 ∧ s.1 ≥ 2 then
          acc ++ [⟨r.name, r.priority,
            if s.2.2 > 0 then ⟨s.1, max s.2.2 (r.files.length + r.folders.length)⟩
            else ⟨0, 1⟩⟩]
        else acc
      rulesGo o rest acc'

/-- The final comparator (`compare(a, b) > 0`): within a confidence delta
of 0.2 the higher declared priority wins, otherwise the higher
confidence wins. -/
def candAfter (a b : DetectionCandidate) : Bool :=
  if fracDeltaSmall a.confidence b.confidence then a.priority < b.priority
  else fracLt a.confidence b.confidence

/-- `detectProjectType`: sort the rule table by priority, score every
rule, sort the surviving candidates, and return at most three names. -/
def detectE (o : DetectFS) : Except Unit (List String) :=
  match rulesGo o (sortRulesByPriority PROJECT_DETECTION_RULES) [] with
  | .error e => .error e
  | .ok cands => .ok (((insSortBy candAfter cands).take 3).map DetectionCandidate.name)

/-! ### A concrete directory tree and its oracle -/

/-- A concrete directory entry: a file with content, or a subdirectory. -/
inductive FT where
  | f (name content : String)
  | d (name : String) (sub : List FT)
deriving Repr

def ftName : FT → String
  | .f n _ => n
  | .d n _ => n

def topFileNames (es : List FT) : List String :=
  es.filterMap (fun e => match e with | .f n _ => some n | .d _ _ => none)

def findDir : List FT → Str → Option (List FT)
  | [], _ => none
  | .f _ _ :: rest, seg => findDir rest seg
  | .d n sub :: rest, seg => if n.data = seg then some sub else findDir rest seg

def findFileC : List FT → Str → Option String
  | [], _ => none
  | .f n c :: rest, seg => if n.data = seg then some c else findFileC rest seg
  | .d _ _ :: rest, seg => findFileC rest seg

/-- Existence of a (possibly multi-segment) relative path in the tree. -/
def walkExists : List FT → List Str → Bool
  | _, [] => false
  | es, [seg] => es.any (fun e => (ftName e).data = seg)
  | es, seg :: rest =>
    match findDir es seg with
    | some sub => walkExists sub rest
    | none => false

def readFileT : List FT → List Str → Option String
  | _, [] => none
  | es, [seg] => findFileC es seg
  | es, seg :: rest => (findDir es seg).bind (fun sub => readFileT sub rest)

def allowDirs : List String := ["src", "lib", "app", "pages", "components", "main"]

/-- The recursive `collectFiles` scan, unrolled per depth level (the
source caps the recursion at depth 2, so three levels suffice): gathers
base file names and directory names (with a trailing `/`), recursing
only into the allowed source directories.  At depth 2 the recursive call
would start with `depth > 2` and return immediately, so no descent. -/
def collectL2 : List FT → List String × List String
  | [] => ([], [])
  | .f n _ :: rest =>
    let r := collectL2 rest
    (n :: r.1, r.2)
  | .d n _ :: rest =>
    let r := collectL2 rest
    (r.1, (n ++ "/") :: r.2)

def collectL1 : List FT → List String × List String
  | [] => ([], [])
  | .f n _ :: rest =>
    let r := collectL1 rest
    (n :: r.1, r.2)
  | .d n sub :: rest =>
    let sr := if allowDirs.contains n then collectL2 sub else ([], [])
    let r := collectL1 rest
    (sr.1 ++ r.1, (n ++ "/") :: (sr.2 ++ r.2))

def collectL0 : List FT → List String × List String
  | [] => ([], [])
  | .f n _ :: rest =>
    let r := collectL0 rest
    (n :: r.1, r.2)
  | .d n sub :: rest =>
    let sr := if allowDirs.contains n then collectL1 sub else ([], [])
    let r := collectL0 rest
    (sr.1 ++ r.1, (n ++ "/") :: (sr.2 ++ r.2))

/-- The error-free oracle of a concrete directory tree.  `JSON.parse` is
an external collaborator, so its outcome on a manifest text is passed in
as a function. -/
def mkDetectFS (es : List FT) (jsonReact : String → Option Bool) : DetectFS where
  listTop := .ok (topFileNames es)
  pathExists := fun p => .ok (walkExists es (chSplit '/' p.data))
  readFile := fun p =>
    match readFileT es (chSplit '/' p.data) with
    | some c => .ok c
    | none => .error ()
  jsonHasReact := jsonReact
  collect := .ok (collectL0 es)

/-! ## Ignore-pattern resolution (`projectDetection.ts` + config loader) -/

def COMMON_IGNORE_PATTERNS : DefaultIgnorePattern :=
  ⟨[".DS_Store", "Thumbs.db", "desktop.ini", "*.swp", "*.swo", "*~"],
   [".git", ".svn", ".hg", ".idea", ".vscode", "*.tmp", "tmp", "temp"],
   [".tmp", ".temp", ".bak", ".backup", ".old"]⟩

def DEFAULT_IGNORE_PATTERNS : List (String × DefaultIgnorePattern) := [
  ("Next.js", ⟨[".env.local", ".env.development.local", ".env.test.local", ".env.production.local"],
    [".next", "out", "dist", "node_modules", ".vercel", ".netlify"], [".log", ".lock"]⟩),
  ("Vue.js", ⟨[".env.local", ".env.*.local"],
    ["dist", "node_modules", ".nuxt", ".output", ".cache", ".temp"], [".log", ".lock"]⟩),
  ("React", ⟨[".env.local", ".env.development.local", ".env.test.local", ".env.production.local"],
    ["build", "dist", "node_modules", ".cache"], [".log", ".lock"]⟩),
  ("Deno", ⟨["deno.lock", ".env"], [".deno", "vendor"], [".log", ".cache"]⟩),
  ("Node.js", ⟨[".env", ".env.local", ".env.*.local", "npm-debug.log*", "yarn-debug.log*",
      "yarn-error.log*"],
    ["node_modules", "dist", "build", ".nyc_output", "coverage", ".cache"],
    [".log", ".lock", ".tgz", ".tar.gz"]⟩),
  ("Python", ⟨[".env", "*.pyc", "*.pyo", "*.pyd", ".Python", "pip-log.txt",
      "pip-delete-this-directory.txt"],
    ["__pycache__", "*.egg-info", "dist", "build", ".pytest_cache", ".coverage", ".mypy_cache",
      "venv", ".venv", "env", ".env", "ENV", "env.bak", "venv.bak"],
    [".pyc", ".pyo", ".pyd", ".so", ".egg", ".whl"]⟩),
  ("Rust", ⟨["Cargo.lock"], ["target", ".cargo"], [".rlib", ".rmeta", ".crate"]⟩),
  ("Go", ⟨["go.sum"], ["vendor", "bin", "pkg"], [".exe", ".test", ".prof"]⟩),
  ("Arduino", ⟨["*.hex", "*.bin", "*.elf"], ["build", ".vscode"],
    [".hex", ".bin", ".elf", ".map", ".lst"]⟩),
  ("ESP-IDF", ⟨["sdkconfig.old", "*.bin", "*.elf", "*.map"],
    ["build", "managed_components", ".espressif"], [".bin", ".elf", ".map", ".hex"]⟩),
  ("C/C++", ⟨["*.o", "*.obj", "*.exe", "*.dll", "*.so", "*.dylib", "core", "a.out"],
    ["build", "bin", "obj", ".vs", "Debug", "Release"],
    [".o", ".obj", ".exe", ".dll", ".so", ".dylib", ".a", ".lib", ".pdb", ".ilk", ".exp"]⟩),
  ("Java", ⟨["*.class", "*.jar", "*.war", "*.ear", "hs_err_pid*"],
    ["target", "build", ".gradle", ".mvn", "bin"], [".class", ".jar", ".war", ".ear"]⟩),
  ("C#/.NET", ⟨["*.exe", "*.dll", "*.pdb", "*.cache"],
    ["bin", "obj", "packages", ".vs", ".vscode", "TestResults"],
    [".exe", ".dll", ".pdb", ".cache", ".user", ".suo"]⟩),
  ("PHP", ⟨[".env", "composer.phar"], ["vendor", "storage/logs", "bootstrap/cache"], [".log"]⟩),
  ("Ruby", ⟨[".env", "*.gem", ".bundle"], ["vendor/bundle", ".bundle", "log", "tmp"],
    [".gem", ".rbc"]⟩),
  ("Swift", ⟨["*.xcuserstate", "*.xcuserdatad"], [".build", "DerivedData", "xcuserdata", ".swiftpm"],
    [".xcuserstate", ".xcuserdatad"]⟩),
  ("Kotlin", ⟨["*.class", "*.jar", "*.war", "*.ear"], ["build", ".gradle", "bin"],
    [".class", ".jar", ".war", ".ear"]⟩)]

/-- Deduplication with `[...new Set(xs)]` semantics: keeps the first
occurrence of each element, in order.  `seen` accumulates the elements
already emitted. -/
def jsDedupGo (seen : List String) : List String → List String
  | [] => []
  | a :: rest =>
    if a ∈ seen then jsDedupGo seen rest
    else a :: jsDedupGo (a :: seen) rest

def jsDedup (l : List String) : List String := jsDedupGo [] l

/-- The table lookup `DEFAULT_IGNORE_PATTERNS[projectType]`; a missing
entry contributes nothing, which is modelled by an empty record. -/
def defIgnoreOf (t : String) : DefaultIgnorePattern :=
  match DEFAULT_IGNORE_PATTERNS.find? (fun e => e.1 = t) with
  | some p => p.2
  | none => ⟨[], [], []⟩

/-- `getDefaultIgnorePatterns`: start from the common baseline, append
the registered defaults of every detected type (missing entries
contribute nothing), and deduplicate each collection. -/
def getDefaultIgnorePatterns (projectTypes : List String) : DefaultIgnorePattern :=
  ⟨jsDedup (COMMON_IGNORE_PATTERNS.files ++ projectTypes.flatMap (fun t => (defIgnoreOf t).files)),
   jsDedup (COMMON_IGNORE_PATTERNS.folders ++
     projectTypes.flatMap (fun t => (defIgnoreOf t).folders)),
   jsDedup (COMMON_IGNORE_PATTERNS.extensions ++
     projectTypes.flatMap (fun t => (defIgnoreOf t).extensions))⟩

/-- `mergeArrays` from the config loader: user-declared entries come
first, then the defaults, deduplicated; an absent or empty user list
yields a copy of the defaults. -/
def mergeArrays (existing defaults : List String) : List String :=
  if existing.isEmpty then defaults else jsDedup (existing ++ defaults)

/-- The effective ignore set of the config loader: detected-type
defaults merged under the user's overrides, per collection. -/
def resolveIgnore (types ovFiles ovFolders ovExts : List String) : DefaultIgnorePattern :=
  let d := getDefaultIgnorePatterns types
  ⟨mergeArrays ovFiles d.files, mergeArrays ovFolders d.folders, mergeArrays ovExts d.extensions⟩

/-- The C/C++ entry of the rule table (index 10 in source order). -/
def ccRule : ProjectDetectionRule :=
  ⟨"C/C++", 5, ["Makefile", "CMakeLists.txt", "configure.ac"], ["build", "obj"],
   ["*.c", "*.cpp", "*.cc", "*.cxx", "*.h", "*.hpp"]⟩

/-- An oracle whose existence checks throw (std `exists` rethrows
e.g. a missing read permission) while every guarded primitive succeeds. -/
def throwingExistsFS : DetectFS :=
  ⟨.ok [], fun _ => .error (), fun _ => .error (), fun _ => none, .ok ([], [])⟩

/-! # Theorems -/

/-- A line starting with the `//` marker automatically contains a `/`. -/
theorem hasSub_slash_of_hasPre (l : Str) (h : hasPre ['/', '/'] l = true) :
    hasSub ['/'] l = true := by
  match l with
  | [] => simp [hasPre] at h
  | c :: rest =>
    have hc : '/' = c := by
      by_contra hne
      simp [hasPre, hne] at h
    simp [hasSub, findSub, hasPre, ← hc]

/-- C1, counterexample.  The claim accepts a path if and only if the
relative path is non-empty, does not start with a *parent-traversal
segment*, and is not absolute.  For root `/proj` and declared path
`..foo`, the relative path is `..foo`: its first segment is `..foo`,
not the traversal segment `..`, so the claim's predicate (`specSafeRel`)
accepts it — but `isPathSafe` rejects it, because the code tests the
two-character string prefix `..`, not the first path segment. -/
theorem pathSafety_claim_counterexample :
    isPathSafe (("/proj").data) (resolveTarget (("/proj").data) (("..foo").data)) = false ∧
    specSafeRel (relAbs (("/proj").data) (resolveTarget (("/proj").data) (("..foo").data))) =
      true ∧
    resolveTarget (("/proj").data) (("..foo").data) = ("/proj/..foo").data := by
  exact ⟨rfl, rfl, rfl⟩

/-- C1, amended.  With project root `R`, a declared path is resolved
(relative paths against `R`, absolute paths used as-is) and normalized,
and is accepted iff the relative path from `R` to the target is
non-empty, does not start with the two-character string `..` (which also
rejects in-root names that merely begin with two dots), and is not
absolute.  `../etc/passwd` is rejected, `src/a.ts` resolves to
`/proj/src/a.ts` and is accepted, the absolute `/proj/sub/b.ts` is
accepted, `.` resolves to the root itself and is rejected, and a
rejected path causes no filesystem access (no read, no write, no mkdir,
and an unchanged filesystem). -/
theorem pathSafety_amended (base : Str) (fs : FS) (content : Str)
    (h : isPathSafe base (resolveTarget base (parseFileContent content).filePath) = false) :
    (resolveTarget (("/proj").data) (("../etc/passwd").data) = ("/etc/passwd").data ∧
     isPathSafe (("/proj").data) (("/etc/passwd").data) = false ∧
     resolveTarget (("/proj").data) (("src/a.ts").data) = ("/proj/src/a.ts").data ∧
     isPathSafe (("/proj").data) (("/proj/src/a.ts").data) = true ∧
     resolveTarget (("/proj").data) (("/proj/sub/b.ts").data) = ("/proj/sub/b.ts").data ∧
     isPathSafe (("/proj").data) (("/proj/sub/b.ts").data) = true ∧
     resolveTarget (("/proj").data) ((".").data) = ("/proj").data ∧
     isPathSafe (("/proj").data) (("/proj").data) = false) ∧
    ((processClipboardContent base fs content).fs = fs ∧
     (processClipboardContent base fs content).reads = [] ∧
     (processClipboardContent base fs content).writes = [] ∧
     (processClipboardContent base fs content).mkdirs = []) := by
  refine ⟨⟨rfl, rfl, rfl, rfl, rfl, rfl, rfl, rfl⟩, ?_⟩
  unfold processClipboardContent
  by_cases hp : (parseFileContent content).filePath = []
  · simp [hp]
  · simp [hp, h]

/-- C1, witness for `pathSafety_amended` at root `/proj`, an empty
filesystem and the payload `// ../x` (whose target escapes the root). -/
theorem pathSafety_amended_witness :
    (processClipboardContent (("/proj").data) [] (("// ../x\nbody").data)).fs = [] ∧
    (processClipboardContent (("/proj").data) [] (("// ../x\nbody").data)).reads = [] ∧
    (processClipboardContent (("/proj").data) [] (("// ../x\nbody").data)).writes = [] ∧
    (processClipboardContent (("/proj").data) [] (("// ../x\nbody").data)).mkdirs = [] :=
  (pathSafety_amended (("/proj").data) [] (("// ../x\nbody").data) (by decide)).2

/-- C2.  The claim says the first occurrence of the search text is
replaced *by the replacement text*.  The code calls JavaScript
`String.prototype.replace`, which interprets `$`-sequences in the
replacement: for the file `a/b` containing `x=1\nx=1\n` and a clipboard
payload with search `x=1` and replacement `$&2`, the code writes
`x=12\nx=1\n` (`$&` expands to the matched text) instead of the literal
`$&2\nx=1\n` the claim requires.  The first conjunct shows the claim's
own `$`-free example does hold (first occurrence only). -/
theorem searchReplace_dollar_divergence :
    replaceJS (("x=1\nx=1\n").data) (("x=1").data) (("x=2").data) = ("x=2\nx=1\n").data ∧
    (processClipboardContent (("/proj").data) [((("/proj/a/b").data), ("x=1\nx=1\n").data)]
        (("// a/b\n------- SEARCH\nx=1\n=======\n$&2\n+++++++ REPLACE").data)).fs =
      [((("/proj/a/b").data), ("x=12\nx=1\n").data)] ∧
    ("x=12\nx=1\n").data ≠ ("$&2\nx=1\n").data := by
  exact ⟨rfl, rfl, by decide⟩

/-- C3.  For every clipboard text classified as SearchReplace (all three
delimiter tokens present) whose extracted search text trims to the empty
string, `processSearchReplace` rejects the operation before any file
access: no read, no write, an unchanged filesystem, and an
"empty search pattern" error report. -/
theorem emptySearch_rejected (fs : FS) (filePath content : Str)
    (h1 : isSearchReplacePattern content = true) (h2 : srSearch content = []) :
    processSearchReplace fs filePath content = ⟨fs, [], [], [], [.emptySearch]⟩ := by
  rcases ha : findSub SEARCH_TOK content with _ | a
  · simp [isSearchReplacePattern, hasSub, ha] at h1
  rcases hb : findSub SEP_TOK content with _ | b
  · simp [isSearchReplacePattern, hasSub, hb] at h1
  rcases hc : findSub REPL_TOK content with _ | c
  · simp [isSearchReplacePattern, hasSub, hc] at h1
  simp [processSearchReplace, srIdx, ha, hb, hc, h2]

/-- C3, witness: the degenerate payload with an empty search block from
the spec's test catalogue, on a one-file filesystem. -/
theorem emptySearch_rejected_witness :
    processSearchReplace [((("/proj/a/b").data), ("c").data)] (("/proj/a/b").data)
        (("------- SEARCH\n=======\nfoo\n+++++++ REPLACE").data) =
      ⟨[((("/proj/a/b").data), ("c").data)], [], [], [], [.emptySearch]⟩ :=
  emptySearch_rejected _ _ _ (by decide) (by decide)

/-- C4, counterexample.  The payload below contains all three delimiter
tokens but in reversed order (`+++++++ REPLACE` first, `------- SEARCH`
last, shown by the index comparison in the last conjunct).  The claim
says such a recognized text is classified as a WholeFile operation; the
code classifies it as SearchReplace anyway (`isSearchReplacePattern`
only tests presence) and processes it as one: the target file is *read*
and a "pattern not found" error is reported, with no write — whereas a
WholeFile operation never reads and always writes. -/
theorem delimiterOrder_counterexample :
    isFileReplacementPattern
        (("// a/b\n+++++++ REPLACE\n=======\n------- SEARCH\n").data) = true ∧
    isSearchReplacePattern
        (("// a/b\n+++++++ REPLACE\n=======\n------- SEARCH\n").data) = true ∧
    processClipboardContent (("/proj").data) [((("/proj/a/b").data), ("hello").data)]
        (("// a/b\n+++++++ REPLACE\n=======\n------- SEARCH\n").data) =
      ⟨[((("/proj/a/b").data), ("hello").data)], [("/proj/a/b").data], [], [], [.notFound]⟩ ∧
    (findSub REPL_TOK (("// a/b\n+++++++ REPLACE\n=======\n------- SEARCH\n").data)).getD 0 <
      (findSub SEARCH_TOK (("// a/b\n+++++++ REPLACE\n=======\n------- SEARCH\n").data)).getD 0 := by
  exact ⟨rfl, rfl, rfl, by decide⟩

/-- C4, amended.  Classification ignores the order of the delimiter
tokens: whenever all three tokens are present anywhere in a recognized
payload with a non-empty, in-root declared path,
`processClipboardContent` dispatches to the SearchReplace processor
(never to the WholeFile writer), even when the tokens are out of order —
the extraction then relies on JavaScript `substring` swapping its
arguments. -/
theorem delimiterOrder_amended (base : Str) (fs : FS) (content : Str)
    (hsr : isSearchReplacePattern content = true)
    (hpath : (parseFileContent content).filePath ≠ [])
    (hsafe : isPathSafe base (resolveTarget base (parseFileContent content).filePath) = true) :
    processClipboardContent base fs content =
      processSearchReplace fs (resolveTarget base (parseFileContent content).filePath) content := by
  unfold processClipboardContent
  simp [hpath, hsafe, hsr]

/-- C4, witness for `delimiterOrder_amended` at the reversed-order
payload. -/
theorem delimiterOrder_amended_witness :
    processClipboardContent (("/proj").data) []
        (("// a/b\n+++++++ REPLACE\n=======\n------- SEARCH\n").data) =
      processSearchReplace []
        (resolveTarget (("/proj").data)
          ((parseFileContent
            (("// a/b\n+++++++ REPLACE\n=======\n------- SEARCH\n").data)).filePath))
        (("// a/b\n+++++++ REPLACE\n=======\n------- SEARCH\n").data) :=
  delimiterOrder_amended _ _ _ (by decide) (by decide) (by decide)

/-- C5, counterexample.  The claim allows an operation only when the
first non-empty line starts with `//` *followed by a path containing a
separator*.  The payload `// README.md` declares a path with no
separator at all, yet it is recognized and one monitor tick *does*
mutate the filesystem, writing `/proj/README.md` — the `includes('/')`
test is satisfied by the `//` marker itself. -/
theorem recognitionGate_counterexample :
    isFileReplacementPattern (("// README.md\nnew content").data) = true ∧
    hasSub ['/'] ((parseFileContent (("// README.md\nnew content").data)).filePath) = false ∧
    (checkClipboardStep (("/proj").data) [] (("// README.md\nnew content").data) []).writes =
      [("/proj/README.md").data] := by
  exact ⟨rfl, rfl, rfl⟩

/-- C5, amended.  Recognition is decided by the *first* line of the
clipboard text (not the first non-empty line), and the separator
requirement is vacuous: the trimmed first line is recognized exactly
when it starts with `//`, or starts with a code fence whose remainder
(after stripping the backticks and trimming) starts with `//` — the
`includes('/')` checks of the source are implied by the `//` marker.
For every text whose first line matches neither shape, a monitor tick
performs no mutation at all. -/
theorem recognitionGate_amended :
    (∀ content : Str,
      isFileReplacementPattern content =
        (hasPre ['/', '/'] (jsTrim ((chSplit '\n' content).headD [])) ||
          (hasPre (("```").data) (jsTrim ((chSplit '\n' content).headD [])) &&
            hasPre ['/', '/']
              (jsTrim (stripFence (jsTrim ((chSplit '\n' content).headD []))))))) ∧
    (∀ (base : Str) (fs : FS) (content lastContent : Str),
      isFileReplacementPattern content = false →
        checkClipboardStep base fs content lastContent = ⟨fs, [], [], [], []⟩) := by
  constructor
  · intro content
    unfold isFileReplacementPattern
    generalize jsTrim ((chSplit '\n' content).headD []) = fl
    cases h1 : hasPre ['/', '/'] fl
    · cases h3 : hasPre (("```").data) fl
      · simp [h1, h3]
      · cases h4 : hasPre ['/', '/'] (jsTrim (stripFence fl))
        · simp [h1, h3, h4]
        · simp [h1, h3, h4, hasSub_slash_of_hasPre _ h4]
    · simp [h1, hasSub_slash_of_hasPre _ h1]
  · intro base fs content lastContent h
    unfold checkClipboardStep
    by_cases hc : (content = lastContent || jsTrim content = []) = true
    · simp [hc]
    · rw [Bool.not_eq_true] at hc
      simp [hc, h]

/-- C5, witness for the no-mutation half of `recognitionGate_amended` at
an arbitrary unrecognized clipboard text. -/
theorem recognitionGate_amended_witness :
    checkClipboardStep (("/proj").data) [] (("hello world").data) [] = ⟨[], [], [], [], []⟩ :=
  recognitionGate_amended.2 (("/proj").data) [] (("hello world").data) [] (by decide)

/-- C10.  The path-separator requirement of the recognizer is vacuously
satisfied by the `//` marker itself: any clipboard text whose trimmed
first line starts with `//` — or starts with a fence whose stripped
remainder starts with `//` — is recognized as a file-replacement
pattern, even when the declared path (e.g. `README.md`) contains no
directory separator. -/
theorem slashMarker_vacuous (content : Str)
    (h : hasPre ['/', '/'] (jsTrim ((chSplit '\n' content).headD [])) = true ∨
      (hasPre (("```").data) (jsTrim ((chSplit '\n' content).headD [])) = true ∧
        hasPre ['/', '/']
          (jsTrim (stripFence (jsTrim ((chSplit '\n' content).headD [])))) = true)) :
    isFileReplacementPattern content = true := by
  unfold isFileReplacementPattern
  revert h
  generalize jsTrim ((chSplit '\n' content).headD []) = fl
  intro h
  rcases h with h | ⟨h1, h2⟩
  · simp [h, hasSub_slash_of_hasPre _ h]
  · by_cases hf : hasPre ['/', '/'] fl = true
    · simp [hf, hasSub_slash_of_hasPre _ hf]
    · rw [Bool.not_eq_true] at hf
      simp [hf, h1, h2, hasSub_slash_of_hasPre _ h2]

/-- C10, witness: `// README.md` — a declared path with no separator —
is recognized. -/
theorem slashMarker_vacuous_witness :
    isFileReplacementPattern (("// README.md\ncontents").data) = true :=
  slashMarker_vacuous _ (Or.inl (by decide))

/-- C6, counterexample.  The claim says *every* directory with a
top-level Makefile and no C/C++ source file is not detected as C/C++.
For the directory `{Makefile, obj/}` — which contains no C/C++ source
file at all (second conjunct) — detection returns `C/C++` among its
results: the `obj` folder alone contributes a weight of 2, which meets
the detection threshold.  (The Makefile itself still contributes
nothing.) -/
theorem ccRequiresSource_counterexample :
    detectE (mkDetectFS [.f "Makefile" "", .d "obj" []] (fun _ => none)) =
      .ok ["C#/.NET", "C/C++"] ∧
    (topFileNames [FT.f "Makefile" "", FT.d "obj" []]).any (fun n => cppSrcName n.data) =
      false := by
  exact ⟨rfl, rfl⟩

/-- C6, amended.  The *build files* of the C/C++ rule (`Makefile`,
`CMakeLists.txt`, `configure.ac`) contribute no weight when the
top-level listing contains no file with a C/C++ source extension
(`.c`/`.cpp`/`.cc`/`.cxx`/`.c++`, case-insensitive): the `files` check
leaves the score unchanged.  A directory containing only a `Makefile`
yields no detection at all, and adding `main.c` to it makes detection
return exactly `["C/C++"]`.  (Folder and filename-pattern evidence can
still detect C/C++ without any source file — see the counterexample.) -/
theorem ccRequiresSource_amended (o : DetectFS) (st : Nat × Nat) (f : String)
    (names : List String)
    (hf : f = "Makefile" ∨ f = "CMakeLists.txt" ∨ f = "configure.ac")
    (hb : ∃ b, o.pathExists f = .ok b)
    (hl : o.listTop = .ok names)
    (hs : names.any (fun n => cppSrcName n.data) = false) :
    fileCheck o ccRule st f = .ok st ∧
    ccRule ∈ PROJECT_DETECTION_RULES ∧
    detectE (mkDetectFS [.f "Makefile" ""] (fun _ => none)) = .ok [] ∧
    detectE (mkDetectFS [.f "Makefile" "", .f "main.c" ""] (fun _ => none)) =
      .ok ["C/C++"] := by
  refine ⟨?_, by decide, rfl, rfl⟩
  obtain ⟨b, hb⟩ := hb
  have hstar : hasSub ['*'] f.data = false := by
    rcases hf with rfl | rfl | rfl <;> decide
  have hcc : (ccRule.name = "C/C++" ∧
      (f = "Makefile" ∨ f = "CMakeLists.txt" ∨ f = "configure.ac")) := ⟨rfl, hf⟩
  have hnr : ¬ (f = "package.json" ∧ ccRule.name = "React") := by
    rintro ⟨rfl, -⟩
    rcases hf with h | h | h <;> simp at h
  unfold fileCheck
  rw [hstar, hb]
  cases b
  · simp
  · simp only [Bool.false_eq_true, if_false, if_true, if_neg hnr, if_pos hcc, hl]
    rw [hs]
    simp

/-- C6, witness for `ccRequiresSource_amended`: the `{Makefile, obj/}`
oracle, whose existence checks never throw and whose top-level listing
`["Makefile"]` contains no C/C++ source. -/
theorem ccRequiresSource_amended_witness :
    fileCheck (mkDetectFS [.f "Makefile" "", .d "obj" []] (fun _ => none)) ccRule (0, 0)
        "Makefile" = .ok (0, 0) ∧
    ccRule ∈ PROJECT_DETECTION_RULES ∧
    detectE (mkDetectFS [.f "Makefile" ""] (fun _ => none)) = .ok [] ∧
    detectE (mkDetectFS [.f "Makefile" "", .f "main.c" ""] (fun _ => none)) =
      .ok ["C/C++"] :=
  ccRequiresSource_amended _ _ _ ["Makefile"] (Or.inl rfl) ⟨true, rfl⟩ rfl (by decide)

/-- `jsDedupGo` keeps exactly the elements of its input that are not in
the `seen` accumulator. -/
theorem mem_jsDedupGo (x : String) (l : List String) :
    ∀ seen, x ∈ jsDedupGo seen l ↔ x ∈ l ∧ x ∉ seen := by
  induction l with
  | nil => intro seen; simp [jsDedupGo]
  | cons a rest ih =>
    intro seen
    unfold jsDedupGo
    by_cases hc : a ∈ seen
    · rw [if_pos hc, ih seen]
      simp only [List.mem_cons]
      constructor
      · rintro ⟨h1, h2⟩
        exact ⟨Or.inr h1, h2⟩
      · rintro ⟨h1 | h1, h2⟩
        · exact absurd (h1 ▸ hc) h2
        · exact ⟨h1, h2⟩
    · rw [if_neg hc]
      simp only [List.mem_cons, ih (a :: seen), List.mem_cons]
      constructor
      · rintro (rfl | ⟨h1, h2⟩)
        · exact ⟨Or.inl rfl, hc⟩
        · exact ⟨Or.inr h1, fun hx => h2 (Or.inr hx)⟩
      · rintro ⟨rfl | h1, h2⟩
        · exact Or.inl rfl
        · by_cases hxa : x = a
          · exact Or.inl hxa
          · exact Or.inr ⟨h1, fun hx => hx.elim hxa h2⟩

theorem nodup_jsDedupGo (l : List String) : ∀ seen, (jsDedupGo seen l).Nodup := by
  induction l with
  | nil => intro seen; simp [jsDedupGo]
  | cons a rest ih =>
    intro seen
    unfold jsDedupGo
    by_cases hc : a ∈ seen
    · rw [if_pos hc]; exact ih seen
    · rw [if_neg hc]
      refine List.nodup_cons.mpr ⟨?_, ih (a :: seen)⟩
      intro hmem
      exact ((mem_jsDedupGo a rest (a :: seen)).mp hmem).2 (List.mem_cons_self a seen)

theorem mem_jsDedup (x : String) (l : List String) : x ∈ jsDedup l ↔ x ∈ l := by
  unfold jsDedup
  rw [mem_jsDedupGo]
  simp

theorem nodup_jsDedup (l : List String) : (jsDedup l).Nodup := nodup_jsDedupGo l []

theorem mem_mergeArrays (x : String) (ex df : List String) :
    x ∈ mergeArrays ex df ↔ x ∈ ex ∨ x ∈ df := by
  unfold mergeArrays
  by_cases he : ex.isEmpty
  · rw [if_pos he]
    rw [List.isEmpty_iff] at he
    subst he
    simp
  · rw [if_neg he, mem_jsDedup, List.mem_append]

theorem nodup_mergeArrays (ex df : List String) (h : df.Nodup) : (mergeArrays ex df).Nodup := by
  unfold mergeArrays
  by_cases he : ex.isEmpty
  · rwa [if_pos he]
  · rw [if_neg he]
    exact nodup_jsDedup _

/-- C7.  For any two detected-type lists that are permutations of each
other and any fixed user overrides, the resolved ignore set is the same:
the `files`, `folders` and `extensions` collections are equal as sets
and contain no duplicates, independently of the merge order. -/
theorem ignoreUnion_commutes (t1 t2 : List String) (h : t1.Perm t2)
    (ovF ovFo ovE : List String) :
    ((resolveIgnore t1 ovF ovFo ovE).files.toFinset =
        (resolveIgnore t2 ovF ovFo ovE).files.toFinset ∧
      (resolveIgnore t1 ovF ovFo ovE).files.Nodup ∧
      (resolveIgnore t2 ovF ovFo ovE).files.Nodup) ∧
    ((resolveIgnore t1 ovF ovFo ovE).folders.toFinset =
        (resolveIgnore t2 ovF ovFo ovE).folders.toFinset ∧
      (resolveIgnore t1 ovF ovFo ovE).folders.Nodup ∧
      (resolveIgnore t2 ovF ovFo ovE).folders.Nodup) ∧
    ((resolveIgnore t1 ovF ovFo ovE).extensions.toFinset =
        (resolveIgnore t2 ovF ovFo ovE).extensions.toFinset ∧
      (resolveIgnore t1 ovF ovFo ovE).extensions.Nodup ∧
      (resolveIgnore t2 ovF ovFo ovE).extensions.Nodup) := by
  have hmem : ∀ a : String, a ∈ t1 ↔ a ∈ t2 := fun a => h.mem_iff
  have key : ∀ (g : String → List String) (comm ov : List String),
      (mergeArrays ov (jsDedup (comm ++ t1.flatMap g))).toFinset =
        (mergeArrays ov (jsDedup (comm ++ t2.flatMap g))).toFinset := by
    intro g comm ov
    ext x
    simp only [List.mem_toFinset, mem_mergeArrays, mem_jsDedup, List.mem_append,
      List.mem_flatMap, hmem]
  refine ⟨⟨?_, ?_, ?_⟩, ⟨?_, ?_, ?_⟩, ⟨?_, ?_, ?_⟩⟩
  · exact key (fun ty => (defIgnoreOf ty).files) COMMON_IGNORE_PATTERNS.files ovF
  · exact nodup_mergeArrays _ _ (nodup_jsDedup _)
  · exact nodup_mergeArrays _ _ (nodup_jsDedup _)
  · exact key (fun ty => (defIgnoreOf ty).folders) COMMON_IGNORE_PATTERNS.folders ovFo
  · exact nodup_mergeArrays _ _ (nodup_jsDedup _)
  · exact nodup_mergeArrays _ _ (nodup_jsDedup _)
  · exact key (fun ty => (defIgnoreOf ty).extensions) COMMON_IGNORE_PATTERNS.extensions ovE
  · exact nodup_mergeArrays _ _ (nodup_jsDedup _)
  · exact nodup_mergeArrays _ _ (nodup_jsDedup _)

/-- C7, witness for `ignoreUnion_commutes` on the permuted type lists
`["Rust", "Go"]` / `["Go", "Rust"]` with concrete overrides. -/
theorem ignoreUnion_commutes_witness :
    ((resolveIgnore ["Rust", "Go"] ["x"] [] [".log"]).files.toFinset =
        (resolveIgnore ["Go", "Rust"] ["x"] [] [".log"]).files.toFinset ∧
      (resolveIgnore ["Rust", "Go"] ["x"] [] [".log"]).files.Nodup ∧
      (resolveIgnore ["Go", "Rust"] ["x"] [] [".log"]).files.Nodup) ∧
    ((resolveIgnore ["Rust", "Go"] ["x"] [] [".log"]).folders.toFinset =
        (resolveIgnore ["Go", "Rust"] ["x"] [] [".log"]).folders.toFinset ∧
      (resolveIgnore ["Rust", "Go"] ["x"] [] [".log"]).folders.Nodup ∧
      (resolveIgnore ["Go", "Rust"] ["x"] [] [".log"]).folders.Nodup) ∧
    ((resolveIgnore ["Rust", "Go"] ["x"] [] [".log"]).extensions.toFinset =
        (resolveIgnore ["Go", "Rust"] ["x"] [] [".log"]).extensions.toFinset ∧
      (resolveIgnore ["Rust", "Go"] ["x"] [] [".log"]).extensions.Nodup ∧
      (resolveIgnore ["Go", "Rust"] ["x"] [] [".log"]).extensions.Nodup) :=
  ignoreUnion_commutes ["Rust", "Go"] ["Go", "Rust"] (by decide) ["x"] [] [".log"]

/-- C8.  `detectProjectType` starts with
`PROJECT_DETECTION_RULES.sort(...)`, and JavaScript `Array.prototype.sort`
sorts *in place*: the first call permanently reorders the exported
module-level rule table (stably, by descending priority).  The reordered
name sequence differs from the declared one — e.g. `Deno` moves from
position 4 to position 2 — so the table is not read-only under
detection, contradicting the claim.  (The entries themselves are
unchanged; only their order is.) -/
theorem ruleTable_mutation :
    (sortRulesByPriority PROJECT_DETECTION_RULES).map ProjectDetectionRule.name ≠
      PROJECT_DETECTION_RULES.map ProjectDetectionRule.name ∧
    (sortRulesByPriority PROJECT_DETECTION_RULES).map ProjectDetectionRule.name =
      ["Next.js", "Deno", "Vue.js", "React", "Node.js", "ESP-IDF", "Python", "Rust", "Go",
       "Arduino", "Java", "C#/.NET", "Swift", "Kotlin", "C/C++", "PHP", "Ruby"] :=
  ⟨by decide, rfl⟩

/-- C9, counterexample.  The per-file and per-folder existence checks of
`detectProjectType` are *not* inside any try/catch: with an oracle whose
`exists` collaborator throws (std `exists` rethrows, e.g., on a missing
read permission) while every guarded primitive succeeds, the exception
escapes `detectProjectType` — contradicting "no exception ever escapes". -/
theorem detectIsolation_counterexample : detectE throwingExistsFS = .error () := rfl

theorem fileCheck_ok (o : DetectFS) (hpe : ∀ p, ∃ b, o.pathExists p = .ok b)
    (rule : ProjectDetectionRule) (st : Nat × Nat) (f : String) :
    ∃ st', fileCheck o rule st f = .ok st' := by
  obtain ⟨b, hb⟩ := hpe f
  unfold fileCheck
  rw [hb]
  repeat' split
  all_goals first
    | exact ⟨_, rfl⟩
    | simp_all

theorem filesGo_ok (o : DetectFS) (hpe : ∀ p, ∃ b, o.pathExists p = .ok b)
    (rule : ProjectDetectionRule) (fs : List String) :
    ∀ st, ∃ st', filesGo o rule fs st = .ok st' := by
  induction fs with
  | nil => exact fun st => ⟨st, rfl⟩
  | cons f rest ih =>
    intro st
    obtain ⟨st1, h1⟩ := fileCheck_ok o hpe rule st f
    unfold filesGo
    rw [h1]
    exact ih st1

theorem folderCheck_ok (o : DetectFS) (hpe : ∀ p, ∃ b, o.pathExists p = .ok b)
    (st : Nat × Nat) (f : String) :
    ∃ st', folderCheck o st f = .ok st' := by
  obtain ⟨b, hb⟩ := hpe f
  unfold folderCheck
  rw [hb]
  cases b
  · exact ⟨_, rfl⟩
  · exact ⟨_, rfl⟩

theorem foldersGo_ok (o : DetectFS) (hpe : ∀ p, ∃ b, o.pathExists p = .ok b)
    (fs : List String) :
    ∀ st, ∃ st', foldersGo o fs st = .ok st' := by
  induction fs with
  | nil => exact fun st => ⟨st, rfl⟩
  | cons f rest ih =>
    intro st
    obtain ⟨st1, h1⟩ := folderCheck_ok o hpe st f
    unfold foldersGo
    rw [h1]
    exact ih st1

theorem ruleScore_ok (o : DetectFS) (hpe : ∀ p, ∃ b, o.pathExists p = .ok b)
    (r : ProjectDetectionRule) :
    ∃ s, ruleScore o r = .ok s := by
  obtain ⟨st1, h1⟩ := filesGo_ok o hpe r r.files (0, 0)
  obtain ⟨st2, h2⟩ := foldersGo_ok o hpe r.folders st1
  unfold ruleScore
  simp only [h1, h2]
  exact ⟨_, rfl⟩

theorem rulesGo_ok (o : DetectFS) (hpe : ∀ p, ∃ b, o.pathExists p = .ok b)
    (rules : List ProjectDetectionRule) :
    ∀ acc, ∃ cs, rulesGo o rules acc = .ok cs := by
  induction rules with
  | nil => exact fun acc => ⟨acc, rfl⟩
  | cons r rest ih =>
    intro acc
    obtain ⟨s, hs⟩ := ruleScore_ok o hpe r
    unfold rulesGo
    rw [hs]
    exact ih _

/-- C9, amended.  The guarded primitives of `detectProjectType` are
swallowed per rule exactly as claimed — errors in a glob directory
listing, in the C/C++ source listing, in the pattern scan, and in the
React manifest read (the latter falling back to a reduced weight of 3
rather than scoring the rule non-matching) — but the per-file and
per-folder *existence checks* are unguarded: if the `exists`
collaborator never throws, no exception escapes `detectProjectType` and
a best-effort result list is returned, whatever any other primitive
does. -/
theorem detectIsolation_amended (o : DetectFS)
    (hpe : ∀ p, ∃ b, o.pathExists p = .ok b) :
    ∃ l, detectE o = .ok l := by
  obtain ⟨cs, hcs⟩ := rulesGo_ok o hpe (sortRulesByPriority PROJECT_DETECTION_RULES) []
  unfold detectE
  rw [hcs]
  exact ⟨_, rfl⟩

/-- C9, witness for `detectIsolation_amended` on a concrete tree oracle,
whose existence checks always return. -/
theorem detectIsolation_amended_witness :
    ∃ l, detectE (mkDetectFS [.f "Makefile" "", .d "build" []] (fun _ => none)) = .ok l :=
  detectIsolation_amended _ (fun _ => ⟨_, rfl⟩)
